import Mathlib

/-!
Shallow embedding of the MIDI song exporters of the songdrummachine
repository.

The repository contains three closely related exporters:
* `RockForgeExporter` (first document of `src/midi-exporter.js`) with the
  random fill generator `_generateFillPattern`;
* `SongDrumMachineExporter` (second document of `src/midi-exporter.js`)
  with look-ahead fill shortening, swing and humanization;
* a fixed `RockForgeExporter` variant (`src/unnamed/part_000`) that tracks
  the last resolved sequencer as the sound source for fills.

JavaScript objects with possibly-missing keys are modelled as functions
into `Option`; `Math.random()` is modelled by an explicit stream of
rational draws consumed in program order (an exhausted stream yields 0,
which lies in the real generator's range `[0,1)`); `Math.round` is
modelled by `jsRound` below.
-/

/-- JavaScript `Math.round`: round half toward positive infinity. -/
def jsRound (x : ℚ) : ℤ := ⌊x + 1/2⌋

/-- A stream of pseudo-random draws, each intended to lie in `[0, 1)`. -/
abbrev Draws := List ℚ

/-- Consume one draw from the stream (`Math.random()`). -/
def rnd (r : Draws) : ℚ × Draws := (r.headD 0, r.tail)

/-- Ticks per 16th-note step.  Modelled from the spec: the source obtains
it as `MidiWriter.Writer.prototype.getTickDuration('16')` from the
external MIDI-writing collaborator, which is outside the repository; the
spec fixes it as the constant 128 ticks per 16th-note step, the value the
RockForge exporter also hardcodes. -/
def ticksPerStep : ℕ := 128

/-- The regular expression test `/^[1-9]$/` on a single character. -/
def isFillTok (c : Char) : Bool := decide ('1' ≤ c) && decide (c ≤ '9')

/-- The regular expression test `/^[A-Z]$/` on a single character. -/
def isUpperTok (c : Char) : Bool := decide ('A' ≤ c) && decide (c ≤ 'Z')

/-- The numeric value `parseInt(item, 10)` of a single digit character. -/
def digitVal (c : Char) : ℕ := c.toNat - '0'.toNat

/-- One sequencer pattern: name, step count, grid and velocity table
(JS objects keyed by instrument, modelled as functions into `Option`). -/
structure PatternData where
  name : Char
  steps : ℕ
  grid : String → Option (List Bool)
  velocities : String → Option (List ℕ)

/-- The lookup
`Object.keys(sequencersData).find(key => sequencersData[key].name === item)`:
first pattern (in declaration order) whose name is the given token. -/
def findPattern (sd : List PatternData) (c : Char) : Option PatternData :=
  sd.find? (fun pd => pd.name == c)

/-- One emitted MIDI note event. -/
structure Event where
  pitch : ℕ
  startTick : ℤ
  velocity : ℤ
  channel : ℕ
deriving DecidableEq

/-- The test `grid[instrument] && grid[instrument][step]`: the
instrument's row exists and marks the step active (out-of-range access is
`undefined`, hence falsy). -/
def activeAt (g : String → Option (List Bool)) (inst : String) (i : ℕ) : Bool :=
  match g inst with
  | some row => row.getD i false
  | none => false

/-- The assignment `fillGrid[inst][i] = true`: set one cell of the grid.
(In JS this throws if the row is missing; all uses keep the chosen
instrument inside the grid's key set.) -/
def gridSet (g : String → Option (List Bool)) (inst : String) (i : ℕ) :
    String → Option (List Bool) :=
  fun j => if j = inst then (g j).map (fun row => row.set i true) else g j

/-- The hardcoded instrument catalog of `RockForgeExporter._generateFillPattern`. -/
def rfCatalog : List String :=
  ["crash1", "crash2", "ride", "china",
   "tom1", "tom2", "tom3", "floor-tom",
   "hi-hat-open", "hi-hat-closed", "snare", "kick"]

namespace RF

/-- The grid initialization of `_generateFillPattern`: one row of
`numSteps` `false`s for every instrument of the hardcoded catalog. -/
def fillInit (numSteps : ℕ) : String → Option (List Bool) :=
  fun inst => if inst ∈ rfCatalog then some (List.replicate numSteps false) else none

/-- One iteration of the fill loop of `_generateFillPattern`: strike one
randomly chosen fill instrument at step `i`. -/
def fillStep (fillInstruments : List String)
    (st : (String → Option (List Bool)) × Draws) (i : ℕ) :
    (String → Option (List Bool)) × Draws :=
  let p := rnd st.2
  let inst := fillInstruments.getD (⌊p.1 * fillInstruments.length⌋).toNat ""
  (gridSet st.1 inst i, p.2)

/-- The function `RockForgeExporter._generateFillPattern`
(`src/midi-exporter.js` lines 8–26, identically `src/unnamed/part_000`
lines 8–25): rows of `numSteps` `false`s for the whole hardcoded catalog,
then for each step one randomly chosen fill instrument is struck. -/
def generateFillPattern (numSteps : ℕ) (fillInstruments : List String) (r : Draws) :
    (String → Option (List Bool)) × Draws :=
  (List.range numSteps).foldl (fillStep fillInstruments) (fillInit numSteps, r)

end RF

namespace SDM

/-- The configuration record destructured at the top of
`SongDrumMachineExporter.exportSong`. -/
structure Config where
  songStructure : List Char
  sequencersData : List PatternData
  INSTRUMENTS : List String
  INSTRUMENT_MIDI_NOTES : String → Option ℕ
  FILL_INSTRUMENTS : List String
  isHumanizeOn : Bool
  swingAmount : ℚ
  timingHumanizeAmount : ℚ
  velocityHumanizeAmount : ℚ

/-- The grid initialization of the fill branch (line 176): one row of
`n` `false`s for every instrument of the `INSTRUMENTS` catalog. -/
def fillInit (INSTR : List String) (n : ℕ) : String → Option (List Bool) :=
  fun inst => if inst ∈ INSTR then some (List.replicate n false) else none

/-- One iteration of the fill loop (lines 177–182): with probability
`Math.random() > 0.4`, strike one random fill instrument at step `i`. -/
def fillStep (FILL : List String)
    (st : (String → Option (List Bool)) × Draws) (i : ℕ) :
    (String → Option (List Bool)) × Draws :=
  let p := rnd st.2
  if p.1 > (2/5 : ℚ) then
    let q := rnd p.2
    (gridSet st.1 (FILL.getD (⌊q.1 * FILL.length⌋).toNat "") i, q.2)
  else (st.1, p.2)

/-- The fill grid synthesis of `SongDrumMachineExporter.exportSong`
(lines 173–183). -/
def generateFill (INSTR FILL : List String) (n : ℕ) (r : Draws) :
    (String → Option (List Bool)) × Draws :=
  (List.range n).foldl (fillStep FILL) (fillInit INSTR n, r)

/-- The rescaling `Math.round((stored / 127) * 100)` of a stored 0–127
velocity to the 1–100 output range (line 214). -/
def rescale (v : ℕ) : ℤ := jsRound ((v : ℚ) / 127 * 100)

/-- Lines 212–215: the base velocity.  `patternData` is only bound for
named-pattern sections, so fills always take the fixed default 100; a
bound pattern contributes its table entry at `(instrument, step)` when
the instrument's velocity row exists. -/
def baseVelocityOf (patternData : Option PatternData) (inst : String) (step : ℕ) : ℤ :=
  match patternData with
  | some pd =>
    match pd.velocities inst with
    | some vrow => rescale (vrow.getD step 0)
    | none => 100
  | none => 100

/-- Lines 221–232: the humanization block.  Returns the perturbed
velocity, the timing offset so far and the remaining stream. -/
def applyHumanize (cfg : Config) (base : ℤ) (r : Draws) : ℤ × ℤ × Draws :=
  if cfg.isHumanizeOn then
    let v :=
      if cfg.velocityHumanizeAmount > 0 then
        let p := rnd r
        (base + jsRound ((p.1 - 1/2) * 2 * 20 * cfg.velocityHumanizeAmount), p.2)
      else (base, r)
    let t :=
      if cfg.timingHumanizeAmount > 0 then
        let p := rnd v.2
        (jsRound ((p.1 - 1/2) * 2 * ((ticksPerStep : ℚ) * (1/4)) * cfg.timingHumanizeAmount), p.2)
      else (0, v.2)
    (v.1, t.1, t.2)
  else (base, 0, r)

/-- Lines 234–238: the swing delay added to the tick offset; zero when
swing is off or the step index is even. -/
def swingDelayOf (swingAmount : ℚ) (step : ℕ) : ℤ :=
  if swingAmount > 0 ∧ step % 2 ≠ 0 then
    jsRound (swingAmount * 2 * (ticksPerStep : ℚ))
  else 0

/-- Lines 207–250: the body of the per-instrument loop at one step.
Emits at most one event (appended to the accumulator) and threads the
random stream. -/
def emitInstr (cfg : Config) (patternData : Option PatternData)
    (grid : String → Option (List Bool)) (currentTick : ℕ) (step : ℕ)
    (st : List Event × Draws) (inst : String) : List Event × Draws :=
  if activeAt grid inst step then
    match cfg.INSTRUMENT_MIDI_NOTES inst with
    | none => st
    | some midiNote =>
      if midiNote = 0 then st
      else
        let h := applyHumanize cfg (baseVelocityOf patternData inst step) st.2
        let tickOffset := h.2.1 + swingDelayOf cfg.swingAmount step
        let finalVelocity := max 1 (min 100 h.1)
        let startTick := (currentTick : ℤ) + (step * ticksPerStep : ℕ) + tickOffset
        (st.1 ++ [⟨midiNote, startTick, finalVelocity, 10⟩], h.2.2)
  else st

/-- Lines 205–256: the step loop of one section. -/
def emitSection (cfg : Config) (patternData : Option PatternData)
    (grid : String → Option (List Bool)) (numSteps : ℕ) (currentTick : ℕ)
    (evr : List Event × Draws) : List Event × Draws :=
  (List.range numSteps).foldl
    (fun st step => cfg.INSTRUMENTS.foldl (emitInstr cfg patternData grid currentTick step) st)
    evr

/-- Lines 194–202: the look-ahead rule.  If the next token is a fill
digit `d` and `d ≤ numSteps`, shorten this section by `d` steps. -/
def lookAheadSteps (arr : List Char) (idx : ℕ) (numSteps : ℕ) : ℕ :=
  if idx + 1 < arr.length then
    let nextIdentifier := arr.getD (idx + 1) ' '
    if isFillTok nextIdentifier then
      let fillLength := digitVal nextIdentifier
      if fillLength ≤ numSteps then numSteps - fillLength else numSteps
    else numSteps
  else numSteps

/-- The resolved step count of the section at `idx`: a fill contributes
its digit; a named pattern its (possibly look-ahead shortened) step
count; an unresolvable token contributes `none`. -/
def sectionSteps (sd : List PatternData) (arr : List Char) (idx : ℕ) : Option ℕ :=
  let c := arr.getD idx ' '
  if isFillTok c then some (digitVal c)
  else (findPattern sd c).map (fun pd => lookAheadSteps arr idx pd.steps)

/-- The compiler loop state: the running tick cursor, emitted events and
the random stream. -/
structure SState where
  currentTick : ℕ
  events : List Event
  rand : Draws
deriving DecidableEq

/-- Lines 167–258: processing of the arrangement item at index `idx`. -/
def processSection (cfg : Config) (st : SState) (idx : ℕ) : SState :=
  let sectionIdentifier := cfg.songStructure.getD idx ' '
  if isFillTok sectionIdentifier then
    let numSteps := digitVal sectionIdentifier
    let g := generateFill cfg.INSTRUMENTS cfg.FILL_INSTRUMENTS numSteps st.rand
    let e := emitSection cfg none g.1 numSteps st.currentTick (st.events, g.2)
    ⟨st.currentTick + numSteps * ticksPerStep, e.1, e.2⟩
  else
    match findPattern cfg.sequencersData sectionIdentifier with
    | none => st
    | some patternData =>
      let numSteps := lookAheadSteps cfg.songStructure idx patternData.steps
      let e := emitSection cfg (some patternData) patternData.grid numSteps st.currentTick
        (st.events, st.rand)
      ⟨st.currentTick + numSteps * ticksPerStep, e.1, e.2⟩

/-- The whole `structureArray.forEach` loop, started from tick 0. -/
def runBody (cfg : Config) (r : Draws) : SState :=
  (List.range cfg.songStructure.length).foldl (processSection cfg) ⟨0, [], r⟩

/-- The tick cursor after compiling the first `j` arrangement items. -/
def cursorAfter (cfg : Config) (r : Draws) (j : ℕ) : ℕ :=
  ((List.range j).foldl (processSection cfg) ⟨0, [], r⟩).currentTick

/-- The outcome of `exportSong`: whether it aborted with the single
user-facing message, the emitted events and the final cursor. -/
structure ExportResult where
  alertMsg : Option String
  events : List Event
  finalTick : ℕ
deriving DecidableEq

/-- The function `SongDrumMachineExporter.exportSong` (lines 137–271),
up to the external serialization: the input-validation guard (line 151)
followed by the compile loop. -/
def exportSong (cfg : Config) (r : Draws) : ExportResult :=
  if cfg.songStructure.isEmpty || cfg.sequencersData.isEmpty then
    ⟨some "Please define a song structure and have at least one sequencer pattern.", [], 0⟩
  else
    let st := runBody cfg r
    ⟨none, st.events, st.currentTick⟩

/-- Replace the swing amount, keeping every other configuration field. -/
def setSwing (cfg : Config) (q : ℚ) : Config :=
  ⟨cfg.songStructure, cfg.sequencersData, cfg.INSTRUMENTS, cfg.INSTRUMENT_MIDI_NOTES,
   cfg.FILL_INSTRUMENTS, cfg.isHumanizeOn, q, cfg.timingHumanizeAmount,
   cfg.velocityHumanizeAmount⟩

/-- Replace the two humanize amounts, keeping every other field. -/
def setAmounts (cfg : Config) (tA vA : ℚ) : Config :=
  ⟨cfg.songStructure, cfg.sequencersData, cfg.INSTRUMENTS, cfg.INSTRUMENT_MIDI_NOTES,
   cfg.FILL_INSTRUMENTS, cfg.isHumanizeOn, cfg.swingAmount, tA, vA⟩

/-- Replace one instrument's entry of the MIDI note mapping, keeping
every other field. -/
def updNotes (cfg : Config) (inst : String) (v : Option ℕ) : Config :=
  ⟨cfg.songStructure, cfg.sequencersData, cfg.INSTRUMENTS,
   (fun j => if j = inst then v else cfg.INSTRUMENT_MIDI_NOTES j),
   cfg.FILL_INSTRUMENTS, cfg.isHumanizeOn, cfg.swingAmount,
   cfg.timingHumanizeAmount, cfg.velocityHumanizeAmount⟩

end SDM

namespace RFF

/-- The parameter record of the fixed RockForge exporter
(`src/unnamed/part_000`). -/
structure Config where
  songStructure : List Char
  sequencersData : List PatternData
  INSTRUMENTS : List String
  INSTRUMENT_MIDI_NOTES : String → Option ℕ
  FILL_INSTRUMENTS : List String

/-- The note velocity of `src/unnamed/part_000` line 106:
`Math.round(currentSequencerData.velocities[instrument][step] / 127 * 100)`,
read positionally from the bound sequencer's velocity table.  (A missing
row or entry is `undefined` in JS and would poison the value; the model
reads a default 0 instead, and the theorems only evaluate it on data whose
rows exist.) -/
def velNote (src : PatternData) (inst : String) (step : ℕ) : ℤ :=
  jsRound ((((src.velocities inst).getD []).getD step 0 : ℚ) / 127 * 100)

/-- The per-instrument loop body of `src/unnamed/part_000` lines 99–111:
emit one event when the grid marks the instrument active and its MIDI
note mapping is truthy. -/
def emitInstr (cfg : Config) (src : PatternData)
    (grid : String → Option (List Bool)) (totalTicks step : ℕ)
    (evs : List Event) (inst : String) : List Event :=
  if activeAt grid inst step then
    match cfg.INSTRUMENT_MIDI_NOTES inst with
    | none => evs
    | some m =>
      if m = 0 then evs
      else evs ++ [⟨m, (totalTicks : ℤ) + (step * ticksPerStep : ℕ), velNote src inst step, 10⟩]
  else evs

/-- The step loop of `src/unnamed/part_000` lines 97–115. -/
def emitSection (cfg : Config) (src : PatternData)
    (grid : String → Option (List Bool)) (numSteps totalTicks : ℕ)
    (evs : List Event) : List Event :=
  (List.range numSteps).foldl
    (fun acc step => cfg.INSTRUMENTS.foldl (emitInstr cfg src grid totalTicks step) acc)
    evs

/-- The loop state of the fixed RockForge exporter: the mutable
`lastValidSequencerId` (resolved to its pattern), the tick cursor, the
emitted events and the random stream. -/
structure RState where
  lastValid : Option PatternData
  totalTicks : ℕ
  events : List Event
  rand : Draws

/-- One iteration of the `songItems.forEach` loop of
`src/unnamed/part_000` lines 61–117: a named pattern updates
`lastValidSequencerId` and emits from its own grid; a fill generates a
random grid (consuming draws even when it is then skipped) and borrows
velocities from `lastValidSequencerId || Object.keys(sequencersData)[0]`;
any other token is skipped. -/
def processItem (cfg : Config) (st : RState) (item : Char) : RState :=
  if isUpperTok item then
    match findPattern cfg.sequencersData item with
    | none => st
    | some pd =>
      ⟨some pd, st.totalTicks + pd.steps * ticksPerStep,
       emitSection cfg pd pd.grid pd.steps st.totalTicks st.events, st.rand⟩
  else if isFillTok item then
    let numSteps := digitVal item
    let g := RF.generateFillPattern numSteps cfg.FILL_INSTRUMENTS st.rand
    match st.lastValid.orElse (fun _ => cfg.sequencersData.head?) with
    | none => ⟨st.lastValid, st.totalTicks, st.events, g.2⟩
    | some src =>
      ⟨st.lastValid, st.totalTicks + numSteps * ticksPerStep,
       emitSection cfg src g.1 numSteps st.totalTicks st.events, g.2⟩
  else st

/-- The whole `songItems.forEach` loop of the fixed RockForge exporter,
started with no last-valid sequencer, tick 0 and no events. -/
def run (cfg : Config) (r : Draws) : RState :=
  cfg.songStructure.foldl (processItem cfg) ⟨none, 0, [], r⟩

/-- Replace one instrument's entry of the MIDI note mapping, keeping
every other field. -/
def updNotes (cfg : Config) (inst : String) (v : Option ℕ) : Config :=
  ⟨cfg.songStructure, cfg.sequencersData, cfg.INSTRUMENTS,
   (fun j => if j = inst then v else cfg.INSTRUMENT_MIDI_NOTES j),
   cfg.FILL_INSTRUMENTS⟩

/-- Modelled from the spec's words ("Record this pattern as the current
sound source for subsequent fills"): the most recently resolved named
pattern among the given tokens, if any. -/
def lastNamedIn (sd : List PatternData) (toks : List Char) : Option PatternData :=
  toks.foldl
    (fun acc t =>
      if isUpperTok t then
        match findPattern sd t with
        | some pd => some pd
        | none => acc
      else acc)
    none

/-- Modelled from the spec's words: the velocity source a fill preceded
by the given tokens must bind to — the most recently resolved named
pattern, falling back to the first-declared pattern. -/
def fillSourceSpec (sd : List PatternData) (pre : List Char) : Option PatternData :=
  match lastNamedIn sd pre with
  | some pd => some pd
  | none => sd.head?

end RFF

/-! Concrete instances used by the witnesses and counterexamples. -/

/-- A note mapping with a single entry: kick, MIDI note 36. -/
def notes36 : String → Option ℕ := fun i => if i = "kick" then some 36 else none

/-- A one-step pattern named A: kick active, stored velocity 64. -/
def pdA64 : PatternData :=
  ⟨'A', 1, fun i => if i = "kick" then some [true] else none,
   fun i => if i = "kick" then some [64] else none⟩

/-- A one-step pattern named A: kick active, stored velocity 127. -/
def pdA127 : PatternData :=
  ⟨'A', 1, fun i => if i = "kick" then some [true] else none,
   fun i => if i = "kick" then some [127] else none⟩

/-- A one-step pattern named B: kick active, stored velocity 127. -/
def pdB127 : PatternData :=
  ⟨'B', 1, fun i => if i = "kick" then some [true] else none,
   fun i => if i = "kick" then some [127] else none⟩

/-- A four-step pattern named A: kick active everywhere, velocity 127. -/
def pdA4 : PatternData :=
  ⟨'A', 4, fun i => if i = "kick" then some [true, true, true, true] else none,
   fun i => if i = "kick" then some [127, 127, 127, 127] else none⟩

/-- Arrangement "1A" over pattern `pdA64` for the SongDrumMachine
exporter: no humanization, no swing. -/
def cfgFill1A : SDM.Config :=
  ⟨['1', 'A'], [pdA64], ["kick"], notes36, ["kick"], false, 0, 0, 0⟩

/-- Arrangement "1A" over pattern `pdA64` for the fixed RockForge
exporter. -/
def rffFill1A : RFF.Config := ⟨['1', 'A'], [pdA64], ["kick"], notes36, ["kick"]⟩

/-- Arrangement "A2" over the four-step pattern `pdA4`. -/
def cfgA2 : SDM.Config :=
  ⟨['A', '2'], [pdA4], ["kick"], notes36, ["kick"], false, 0, 0, 0⟩

/-- Arrangement "AXB" over patterns A and B; no pattern is named X. -/
def cfgAXB : SDM.Config :=
  ⟨['A', 'X', 'B'], [pdA127, pdB127], ["kick"], notes36, ["kick"], false, 0, 0, 0⟩

/-- Arrangement "A" with humanization on, timing amount 1, velocity
amount 0, no swing: used to exhibit a negative start tick. -/
def cfgNegTick : SDM.Config :=
  ⟨['A'], [pdA127], ["kick"], notes36, [], true, 0, 1, 0⟩

/-- Arrangement "A" with humanization off and swing 1/10. -/
def cfgSwing : SDM.Config :=
  ⟨['A'], [pdA127], ["kick"], notes36, [], false, 1/10, 0, 0⟩

/-- A two-step grid marking only the kick, only at step 1. -/
def gridKickStep1 : String → Option (List Bool) :=
  fun i => if i = "kick" then some [false, true] else none

theorem applyHumanize_off (cfg : SDM.Config) (b : ℤ) (r : Draws)
    (h : cfg.isHumanizeOn = false) : SDM.applyHumanize cfg b r = (b, 0, r) := by
  simp [SDM.applyHumanize, h]

theorem applyHumanize_setSwing (cfg : SDM.Config) (q : ℚ) (b : ℤ) (r : Draws) :
    SDM.applyHumanize (SDM.setSwing cfg q) b r = SDM.applyHumanize cfg b r := rfl

theorem setSwing_swingAmount (cfg : SDM.Config) (q : ℚ) :
    (SDM.setSwing cfg q).swingAmount = q := rfl

theorem setSwing_notes (cfg : SDM.Config) (q : ℚ) :
    (SDM.setSwing cfg q).INSTRUMENT_MIDI_NOTES = cfg.INSTRUMENT_MIDI_NOTES := rfl

/-- C7: with an empty arrangement string or no patterns defined at all,
the export aborts before producing anything: it reports the single
user-facing message, emits no event and leaves the time cursor at
zero. -/
theorem empty_input_aborts_c7 (cfg : SDM.Config) (r : Draws)
    (h : cfg.songStructure = [] ∨ cfg.sequencersData = []) :
    SDM.exportSong cfg r =
      ⟨some "Please define a song structure and have at least one sequencer pattern.", [], 0⟩ := by
  rcases h with h | h <;> simp [SDM.exportSong, h]

theorem empty_input_aborts_c7_witness :
    SDM.exportSong ⟨[], [], [], (fun _ => none), [], false, 0, 0, 0⟩ [] =
      ⟨some "Please define a song structure and have at least one sequencer pattern.", [], 0⟩ :=
  empty_input_aborts_c7 _ _ (Or.inl rfl)

/-- C2: velocity rescaling is the pure function round(stored/127·100):
stored 127 maps to 100, stored 0 maps to 1 after the final clamp to
[1,100], the map is monotone non-decreasing in the stored value, the
bound velocity-source's table entry at (instrument, step) is what gets
rescaled, and an unbound velocity source yields the fixed default
100. -/
theorem velocity_rescale_c2 (v w : ℕ) (hvw : v ≤ w) :
    SDM.rescale 127 = 100
    ∧ max 1 (min 100 (SDM.rescale 0)) = 1
    ∧ SDM.rescale v ≤ SDM.rescale w
    ∧ (∀ inst step, SDM.baseVelocityOf none inst step = 100)
    ∧ ∀ pd inst step vrow, pd.velocities inst = some vrow →
        SDM.baseVelocityOf (some pd) inst step = SDM.rescale (vrow.getD step 0) := by
  refine ⟨by norm_num [SDM.rescale, jsRound], by norm_num [SDM.rescale, jsRound],
    ?_, fun _ _ => rfl, ?_⟩
  · unfold SDM.rescale jsRound
    apply Int.floor_le_floor
    have h : (v : ℚ) ≤ (w : ℚ) := by exact_mod_cast hvw
    gcongr
  · intro pd inst step vrow h
    simp [SDM.baseVelocityOf, h]

theorem velocity_rescale_c2_witness :
    (64 : ℕ) ≤ 100
    ∧ SDM.rescale 127 = 100
    ∧ max 1 (min 100 (SDM.rescale 0)) = 1
    ∧ SDM.rescale 64 ≤ SDM.rescale 100
    ∧ SDM.baseVelocityOf none "kick" 0 = 100 := by
  have h := velocity_rescale_c2 64 100 (by norm_num)
  exact ⟨by norm_num, h.1, h.2.1, h.2.2.1, h.2.2.2.1 "kick" 0⟩

/-- C3: a swing offset of exactly round(swingAmount·2·ticksPerStep) is
added to an emitted event's start tick iff swingAmount > 0 and the step
index within the section is odd, independently of the humanize toggle:
relative to the same configuration with swing zeroed the start tick
differs by exactly that amount, and with humanize off the start tick is
the unperturbed base plus that swing term alone. -/
theorem swing_offset_c3 (cfg : SDM.Config) (pd : Option PatternData)
    (grid : String → Option (List Bool)) (tick step : ℕ) (evs : List Event)
    (r : Draws) (inst : String) (m : ℕ)
    (hact : activeAt grid inst step = true)
    (hm : cfg.INSTRUMENT_MIDI_NOTES inst = some m) (hm0 : m ≠ 0) :
    ∃ e e0 : Event,
      (SDM.emitInstr cfg pd grid tick step (evs, r) inst).1 = evs ++ [e]
      ∧ (SDM.emitInstr (SDM.setSwing cfg 0) pd grid tick step (evs, r) inst).1 = evs ++ [e0]
      ∧ e.startTick = e0.startTick +
          (if cfg.swingAmount > 0 ∧ step % 2 ≠ 0 then
            jsRound (cfg.swingAmount * 2 * (ticksPerStep : ℚ)) else 0)
      ∧ (cfg.isHumanizeOn = false →
          e.startTick = (tick : ℤ) + (step * ticksPerStep : ℕ) +
            (if cfg.swingAmount > 0 ∧ step % 2 ≠ 0 then
              jsRound (cfg.swingAmount * 2 * (ticksPerStep : ℚ)) else 0)) := by
  refine ⟨⟨m, (tick : ℤ) + (step * ticksPerStep : ℕ) +
      ((SDM.applyHumanize cfg (SDM.baseVelocityOf pd inst step) r).2.1 +
        SDM.swingDelayOf cfg.swingAmount step),
      max 1 (min 100 (SDM.applyHumanize cfg (SDM.baseVelocityOf pd inst step) r).1), 10⟩,
    ⟨m, (tick : ℤ) + (step * ticksPerStep : ℕ) +
      ((SDM.applyHumanize cfg (SDM.baseVelocityOf pd inst step) r).2.1 + 0),
      max 1 (min 100 (SDM.applyHumanize cfg (SDM.baseVelocityOf pd inst step) r).1), 10⟩,
    ?_, ?_, ?_, ?_⟩
  · simp [SDM.emitInstr, hact, hm, hm0]
  · simp [SDM.emitInstr, hact, hm, hm0, applyHumanize_setSwing, setSwing_notes,
      setSwing_swingAmount, SDM.swingDelayOf]
  · simp only [SDM.swingDelayOf]
    split <;> ring
  · intro hoff
    rw [applyHumanize_off _ _ _ hoff]
    simp only [SDM.swingDelayOf]
    split <;> ring

/-- C4: with the humanize toggle off, the humanization timing and
velocity offsets are exactly zero regardless of the configured amounts:
an emitted event's velocity is the clamped base velocity, its start tick
is section base tick + step·ticksPerStep plus only the swing delay, no
random draw is consumed, and replacing the configured humanize amounts
by any others changes nothing. -/
theorem humanize_off_c4 (cfg : SDM.Config) (pd : Option PatternData)
    (grid : String → Option (List Bool)) (tick step : ℕ) (evs : List Event)
    (r : Draws) (inst : String) (m : ℕ)
    (hoff : cfg.isHumanizeOn = false)
    (hact : activeAt grid inst step = true)
    (hm : cfg.INSTRUMENT_MIDI_NOTES inst = some m) (hm0 : m ≠ 0) :
    SDM.emitInstr cfg pd grid tick step (evs, r) inst =
      (evs ++ [⟨m, (tick : ℤ) + (step * ticksPerStep : ℕ) + SDM.swingDelayOf cfg.swingAmount step,
        max 1 (min 100 (SDM.baseVelocityOf pd inst step)), 10⟩], r)
    ∧ ∀ tA vA : ℚ,
        SDM.emitInstr (SDM.setAmounts cfg tA vA) pd grid tick step (evs, r) inst =
          SDM.emitInstr cfg pd grid tick step (evs, r) inst := by
  constructor
  · simp [SDM.emitInstr, hact, hm, hm0, applyHumanize_off _ _ _ hoff]
  · intro tA vA
    simp [SDM.emitInstr, SDM.applyHumanize, SDM.setAmounts, SDM.swingDelayOf,
      hoff, hact, hm, hm0]

theorem tick_processSection (cfg : SDM.Config) (st : SDM.SState) (idx : ℕ) :
    (SDM.processSection cfg st idx).currentTick =
      st.currentTick +
        (SDM.sectionSteps cfg.sequencersData cfg.songStructure idx).getD 0 * ticksPerStep := by
  unfold SDM.processSection SDM.sectionSteps
  by_cases hf : isFillTok (cfg.songStructure.getD idx ' ') = true
  · simp only [hf]
    simp
  · rw [Bool.not_eq_true] at hf
    simp only [hf]
    cases hfind : findPattern cfg.sequencersData (cfg.songStructure.getD idx ' ') <;>
      simp only [hfind] <;> simp

theorem cursorAfter_succ (cfg : SDM.Config) (r : Draws) (j : ℕ) :
    SDM.cursorAfter cfg r (j + 1) =
      SDM.cursorAfter cfg r j +
        (SDM.sectionSteps cfg.sequencersData cfg.songStructure j).getD 0 * ticksPerStep := by
  unfold SDM.cursorAfter
  rw [List.range_succ, List.foldl_append]
  simp [tick_processSection]

/-- C1: a named pattern (step count N) immediately followed by a fill
digit d resolves to N−d steps when d ≤ N and to all N steps when d > N;
the section's event loop runs over exactly that resolved count of the
pattern's grid; the cursor advances by the resolved count after the
pattern and by d after the fill, so pattern plus fill consume exactly
N × ticksPerStep when d ≤ N. -/
theorem look_ahead_c1 (cfg : SDM.Config) (r : Draws) (i N d : ℕ) (pd : PatternData)
    (hlen : i + 1 < cfg.songStructure.length)
    (hnf : isFillTok (cfg.songStructure.getD i ' ') = false)
    (hfind : findPattern cfg.sequencersData (cfg.songStructure.getD i ' ') = some pd)
    (hN : pd.steps = N)
    (hfill : isFillTok (cfg.songStructure.getD (i + 1) ' ') = true)
    (hd : digitVal (cfg.songStructure.getD (i + 1) ' ') = d) :
    SDM.sectionSteps cfg.sequencersData cfg.songStructure i = some (if d ≤ N then N - d else N)
    ∧ SDM.sectionSteps cfg.sequencersData cfg.songStructure (i + 1) = some d
    ∧ (∀ st : SDM.SState, SDM.processSection cfg st i =
        ⟨st.currentTick + (if d ≤ N then N - d else N) * ticksPerStep,
         (SDM.emitSection cfg (some pd) pd.grid (if d ≤ N then N - d else N) st.currentTick
           (st.events, st.rand)).1,
         (SDM.emitSection cfg (some pd) pd.grid (if d ≤ N then N - d else N) st.currentTick
           (st.events, st.rand)).2⟩)
    ∧ SDM.cursorAfter cfg r (i + 1) =
        SDM.cursorAfter cfg r i + (if d ≤ N then N - d else N) * ticksPerStep
    ∧ SDM.cursorAfter cfg r (i + 2) = SDM.cursorAfter cfg r (i + 1) + d * ticksPerStep
    ∧ (d ≤ N →
        SDM.cursorAfter cfg r (i + 2) = SDM.cursorAfter cfg r i + N * ticksPerStep) := by
  have hla : SDM.lookAheadSteps cfg.songStructure i pd.steps = if d ≤ N then N - d else N := by
    unfold SDM.lookAheadSteps
    simp only [if_pos hlen, hfill, hd, hN]
    simp
  have h1 : SDM.sectionSteps cfg.sequencersData cfg.songStructure i =
      some (if d ≤ N then N - d else N) := by
    unfold SDM.sectionSteps
    simp only [hnf, hfind]
    simp [hla]
  have h2 : SDM.sectionSteps cfg.sequencersData cfg.songStructure (i + 1) = some d := by
    unfold SDM.sectionSteps
    simp only [hfill, hd]
    simp
  have h4 : SDM.cursorAfter cfg r (i + 1) =
      SDM.cursorAfter cfg r i + (if d ≤ N then N - d else N) * ticksPerStep := by
    rw [cursorAfter_succ, h1]
    rfl
  have h5 : SDM.cursorAfter cfg r (i + 2) =
      SDM.cursorAfter cfg r (i + 1) + d * ticksPerStep := by
    have h := cursorAfter_succ cfg r (i + 1)
    rw [h2] at h
    exact h
  refine ⟨h1, h2, ?_, h4, h5, ?_⟩
  · intro st
    unfold SDM.processSection
    simp only [hnf, hfind]
    simp [hla]
  · intro hdN
    rw [h5, h4, if_pos hdN, add_assoc, ← add_mul]
    congr 2
    omega

/-- C6: an arrangement token that is neither a digit 1–9 nor the name of
a defined pattern is skipped outright: the compiler state is unchanged
(no events, no random draws), the section resolves to no steps, and the
cursor does not advance, so the surrounding sections stay contiguous. -/
theorem unknown_token_c6 (cfg : SDM.Config) (r : Draws) (idx : ℕ)
    (hnf : isFillTok (cfg.songStructure.getD idx ' ') = false)
    (hfind : findPattern cfg.sequencersData (cfg.songStructure.getD idx ' ') = none) :
    (∀ st : SDM.SState, SDM.processSection cfg st idx = st)
    ∧ SDM.sectionSteps cfg.sequencersData cfg.songStructure idx = none
    ∧ SDM.cursorAfter cfg r (idx + 1) = SDM.cursorAfter cfg r idx
    ∧ (List.range (idx + 1)).foldl (SDM.processSection cfg) ⟨0, [], r⟩ =
        (List.range idx).foldl (SDM.processSection cfg) ⟨0, [], r⟩ := by
  have hskip : ∀ st : SDM.SState, SDM.processSection cfg st idx = st := by
    intro st
    unfold SDM.processSection
    simp only [hnf, hfind]
    simp
  have hfold : (List.range (idx + 1)).foldl (SDM.processSection cfg) (⟨0, [], r⟩ : SDM.SState) =
      (List.range idx).foldl (SDM.processSection cfg) ⟨0, [], r⟩ := by
    rw [List.range_succ, List.foldl_append]
    simp [hskip]
  refine ⟨hskip, ?_, ?_, hfold⟩
  · unfold SDM.sectionSteps
    simp only [hnf, hfind]
    simp
  · unfold SDM.cursorAfter
    rw [hfold]

theorem look_ahead_c1_witness :
    SDM.sectionSteps cfgA2.sequencersData cfgA2.songStructure 0 = some 2
    ∧ SDM.sectionSteps cfgA2.sequencersData cfgA2.songStructure 1 = some 2
    ∧ SDM.cursorAfter cfgA2 [] 1 = SDM.cursorAfter cfgA2 [] 0 + 2 * ticksPerStep
    ∧ SDM.cursorAfter cfgA2 [] 2 = SDM.cursorAfter cfgA2 [] 1 + 2 * ticksPerStep
    ∧ SDM.cursorAfter cfgA2 [] 2 = SDM.cursorAfter cfgA2 [] 0 + 4 * ticksPerStep := by
  have h := look_ahead_c1 cfgA2 [] 0 4 2 pdA4 (by decide) (by decide) rfl rfl
    (by decide) (by decide)
  refine ⟨by simpa using h.1, by simpa using h.2.1, by simpa using h.2.2.2.1,
    by simpa using h.2.2.2.2.1, h.2.2.2.2.2 (by norm_num)⟩

theorem unknown_token_c6_witness :
    SDM.processSection cfgAXB (⟨0, [], []⟩ : SDM.SState) 1 = ⟨0, [], []⟩
    ∧ SDM.sectionSteps cfgAXB.sequencersData cfgAXB.songStructure 1 = none
    ∧ SDM.cursorAfter cfgAXB [] 2 = SDM.cursorAfter cfgAXB [] 1 := by
  have h := unknown_token_c6 cfgAXB [] 1 (by decide) rfl
  exact ⟨h.1 _, h.2.1, h.2.2.1⟩

theorem swing_offset_c3_witness :
    (∃ e e0 : Event,
      (SDM.emitInstr cfgSwing none gridKickStep1 0 1 ([], []) "kick").1 = [] ++ [e]
      ∧ (SDM.emitInstr (SDM.setSwing cfgSwing 0) none gridKickStep1 0 1 ([], []) "kick").1 =
          [] ++ [e0]
      ∧ e.startTick = e0.startTick +
          (if cfgSwing.swingAmount > 0 ∧ 1 % 2 ≠ 0 then
            jsRound (cfgSwing.swingAmount * 2 * (ticksPerStep : ℚ)) else 0)
      ∧ (cfgSwing.isHumanizeOn = false →
          e.startTick = ((0 : ℕ) : ℤ) + ((1 * ticksPerStep : ℕ) : ℤ) +
            (if cfgSwing.swingAmount > 0 ∧ 1 % 2 ≠ 0 then
              jsRound (cfgSwing.swingAmount * 2 * (ticksPerStep : ℚ)) else 0)))
    ∧ SDM.swingDelayOf cfgSwing.swingAmount 1 = 26 := by
  refine ⟨swing_offset_c3 cfgSwing none gridKickStep1 0 1 [] [] "kick" 36
    (by decide) rfl (by decide), ?_⟩
  norm_num [SDM.swingDelayOf, cfgSwing, jsRound, ticksPerStep]

theorem humanize_off_c4_witness :
    SDM.emitInstr cfgSwing none gridKickStep1 0 1 ([], []) "kick" =
      ([] ++ [⟨36, ((0 : ℕ) : ℤ) + ((1 * ticksPerStep : ℕ) : ℤ) +
          SDM.swingDelayOf cfgSwing.swingAmount 1,
        max 1 (min 100 (SDM.baseVelocityOf none "kick" 1)), 10⟩], [])
    ∧ SDM.emitInstr (SDM.setAmounts cfgSwing 1 1) none gridKickStep1 0 1 ([], []) "kick" =
        SDM.emitInstr cfgSwing none gridKickStep1 0 1 ([], []) "kick"
    ∧ (SDM.emitInstr cfgSwing none gridKickStep1 0 1 ([], []) "kick").1 =
        [⟨36, 154, 100, 10⟩] := by
  have h := humanize_off_c4 cfgSwing none gridKickStep1 0 1 [] [] "kick" 36
    rfl (by decide) rfl (by decide)
  refine ⟨h.1, h.2 1 1, ?_⟩
  rw [h.1]
  norm_num [SDM.swingDelayOf, SDM.baseVelocityOf, cfgSwing, jsRound, ticksPerStep]

theorem applyHumanize_updNotes (cfg : SDM.Config) (inst : String) (v : Option ℕ)
    (b : ℤ) (r : Draws) :
    SDM.applyHumanize (SDM.updNotes cfg inst v) b r = SDM.applyHumanize cfg b r := rfl

theorem updNotes_swingAmount (cfg : SDM.Config) (inst : String) (v : Option ℕ) :
    (SDM.updNotes cfg inst v).swingAmount = cfg.swingAmount := rfl

theorem updNotes_songStructure (cfg : SDM.Config) (inst : String) (v : Option ℕ) :
    (SDM.updNotes cfg inst v).songStructure = cfg.songStructure := rfl

theorem updNotes_sequencersData (cfg : SDM.Config) (inst : String) (v : Option ℕ) :
    (SDM.updNotes cfg inst v).sequencersData = cfg.sequencersData := rfl

theorem updNotes_INSTRUMENTS (cfg : SDM.Config) (inst : String) (v : Option ℕ) :
    (SDM.updNotes cfg inst v).INSTRUMENTS = cfg.INSTRUMENTS := rfl

theorem updNotes_FILL_INSTRUMENTS (cfg : SDM.Config) (inst : String) (v : Option ℕ) :
    (SDM.updNotes cfg inst v).FILL_INSTRUMENTS = cfg.FILL_INSTRUMENTS := rfl

theorem updNotes_notes_self (cfg : SDM.Config) (inst : String) (v : Option ℕ) :
    (SDM.updNotes cfg inst v).INSTRUMENT_MIDI_NOTES inst = v := by
  simp [SDM.updNotes]

theorem updNotes_notes_ne (cfg : SDM.Config) (inst j : String) (v : Option ℕ)
    (h : j ≠ inst) :
    (SDM.updNotes cfg inst v).INSTRUMENT_MIDI_NOTES j = cfg.INSTRUMENT_MIDI_NOTES j := by
  simp [SDM.updNotes, h]

theorem emitInstr_updNotes_zero (cfg : SDM.Config) (inst : String)
    (pd : Option PatternData) (grid : String → Option (List Bool))
    (tick step : ℕ) (st : List Event × Draws) (j : String) :
    SDM.emitInstr (SDM.updNotes cfg inst (some 0)) pd grid tick step st j =
      SDM.emitInstr (SDM.updNotes cfg inst none) pd grid tick step st j := by
  by_cases hj : j = inst
  · subst hj
    simp [SDM.emitInstr, updNotes_notes_self]
  · simp only [SDM.emitInstr, updNotes_notes_ne _ _ _ _ hj, applyHumanize_updNotes,
      updNotes_swingAmount]

theorem emitInstr_updNotes_zero_self (cfg : SDM.Config) (inst : String)
    (pd : Option PatternData) (grid : String → Option (List Bool))
    (tick step : ℕ) (st : List Event × Draws) :
    SDM.emitInstr (SDM.updNotes cfg inst (some 0)) pd grid tick step st inst = st := by
  simp [SDM.emitInstr, updNotes_notes_self]

theorem emitSection_updNotes_zero (cfg : SDM.Config) (inst : String)
    (pd : Option PatternData) (grid : String → Option (List Bool))
    (n tick : ℕ) (evr : List Event × Draws) :
    SDM.emitSection (SDM.updNotes cfg inst (some 0)) pd grid n tick evr =
      SDM.emitSection (SDM.updNotes cfg inst none) pd grid n tick evr := by
  unfold SDM.emitSection
  congr 1
  funext st step
  have h : SDM.emitInstr (SDM.updNotes cfg inst (some 0)) pd grid tick step =
      SDM.emitInstr (SDM.updNotes cfg inst none) pd grid tick step := by
    funext st2 j
    exact emitInstr_updNotes_zero cfg inst pd grid tick step st2 j
  rw [h]
  simp only [updNotes_INSTRUMENTS]

theorem processSection_updNotes_zero (cfg : SDM.Config) (inst : String)
    (st : SDM.SState) (idx : ℕ) :
    SDM.processSection (SDM.updNotes cfg inst (some 0)) st idx =
      SDM.processSection (SDM.updNotes cfg inst none) st idx := by
  unfold SDM.processSection
  simp only [updNotes_songStructure, updNotes_sequencersData, updNotes_INSTRUMENTS,
    updNotes_FILL_INSTRUMENTS, emitSection_updNotes_zero]

theorem runBody_updNotes_zero (cfg : SDM.Config) (inst : String) (r : Draws) :
    SDM.runBody (SDM.updNotes cfg inst (some 0)) r =
      SDM.runBody (SDM.updNotes cfg inst none) r := by
  unfold SDM.runBody
  simp only [updNotes_songStructure]
  congr 1
  funext st idx
  exact processSection_updNotes_zero cfg inst st idx

theorem rff_updNotes_notes_self (cfg : RFF.Config) (inst : String) (v : Option ℕ) :
    (RFF.updNotes cfg inst v).INSTRUMENT_MIDI_NOTES inst = v := by
  simp [RFF.updNotes]

theorem rff_updNotes_notes_ne (cfg : RFF.Config) (inst j : String) (v : Option ℕ)
    (h : j ≠ inst) :
    (RFF.updNotes cfg inst v).INSTRUMENT_MIDI_NOTES j = cfg.INSTRUMENT_MIDI_NOTES j := by
  simp [RFF.updNotes, h]

theorem rff_updNotes_INSTRUMENTS (cfg : RFF.Config) (inst : String) (v : Option ℕ) :
    (RFF.updNotes cfg inst v).INSTRUMENTS = cfg.INSTRUMENTS := rfl

theorem rff_emitInstr_updNotes_zero (cfg : RFF.Config) (inst : String)
    (src : PatternData) (grid : String → Option (List Bool))
    (tick step : ℕ) (evs : List Event) (j : String) :
    RFF.emitInstr (RFF.updNotes cfg inst (some 0)) src grid tick step evs j =
      RFF.emitInstr (RFF.updNotes cfg inst none) src grid tick step evs j := by
  by_cases hj : j = inst
  · subst hj
    simp [RFF.emitInstr, rff_updNotes_notes_self]
  · simp only [RFF.emitInstr, rff_updNotes_notes_ne _ _ _ _ hj]

theorem rff_emitInstr_updNotes_zero_self (cfg : RFF.Config) (inst : String)
    (src : PatternData) (grid : String → Option (List Bool))
    (tick step : ℕ) (evs : List Event) :
    RFF.emitInstr (RFF.updNotes cfg inst (some 0)) src grid tick step evs inst = evs := by
  simp [RFF.emitInstr, rff_updNotes_notes_self]

theorem rff_emitSection_updNotes_zero (cfg : RFF.Config) (inst : String)
    (src : PatternData) (grid : String → Option (List Bool))
    (n tick : ℕ) (evs : List Event) :
    RFF.emitSection (RFF.updNotes cfg inst (some 0)) src grid n tick evs =
      RFF.emitSection (RFF.updNotes cfg inst none) src grid n tick evs := by
  unfold RFF.emitSection
  congr 1
  funext acc step
  have h : RFF.emitInstr (RFF.updNotes cfg inst (some 0)) src grid tick step =
      RFF.emitInstr (RFF.updNotes cfg inst none) src grid tick step := by
    funext evs2 j
    exact rff_emitInstr_updNotes_zero cfg inst src grid tick step evs2 j
  rw [h]
  simp only [rff_updNotes_INSTRUMENTS]

theorem rff_updNotes_sequencersData (cfg : RFF.Config) (inst : String) (v : Option ℕ) :
    (RFF.updNotes cfg inst v).sequencersData = cfg.sequencersData := rfl

theorem rff_updNotes_FILL_INSTRUMENTS (cfg : RFF.Config) (inst : String) (v : Option ℕ) :
    (RFF.updNotes cfg inst v).FILL_INSTRUMENTS = cfg.FILL_INSTRUMENTS := rfl

theorem rff_processItem_updNotes_zero (cfg : RFF.Config) (inst : String)
    (st : RFF.RState) (item : Char) :
    RFF.processItem (RFF.updNotes cfg inst (some 0)) st item =
      RFF.processItem (RFF.updNotes cfg inst none) st item := by
  unfold RFF.processItem
  simp only [rff_updNotes_sequencersData, rff_updNotes_FILL_INSTRUMENTS,
    rff_emitSection_updNotes_zero]

theorem rff_run_updNotes_zero (cfg : RFF.Config) (inst : String) (r : Draws) :
    RFF.run (RFF.updNotes cfg inst (some 0)) r =
      RFF.run (RFF.updNotes cfg inst none) r := by
  unfold RFF.run
  have hs : (RFF.updNotes cfg inst (some 0)).songStructure = cfg.songStructure := rfl
  rw [hs, show (RFF.updNotes cfg inst none).songStructure = cfg.songStructure from rfl]
  congr 1
  funext st item
  exact rff_processItem_updNotes_zero cfg inst st item

/-- C10: an instrument mapped to MIDI note number 0 is excluded from the
output exactly as if its mapping entry were absent — in the
SongDrumMachine exporter the whole export result coincides and the
instrument's loop body emits nothing, and likewise in the fixed RockForge
exporter — because the exclusion test is JS truthiness of the looked-up
value, not presence of the key. -/
theorem note_zero_excluded_c10 (cfg : SDM.Config) (r : Draws) (inst : String)
    (rcfg : RFF.Config) (r2 : Draws) :
    SDM.exportSong (SDM.updNotes cfg inst (some 0)) r =
      SDM.exportSong (SDM.updNotes cfg inst none) r
    ∧ (∀ (pd : Option PatternData) (grid : String → Option (List Bool))
        (tick step : ℕ) (st : List Event × Draws),
        SDM.emitInstr (SDM.updNotes cfg inst (some 0)) pd grid tick step st inst = st)
    ∧ RFF.run (RFF.updNotes rcfg inst (some 0)) r2 = RFF.run (RFF.updNotes rcfg inst none) r2
    ∧ ∀ (src : PatternData) (grid : String → Option (List Bool))
        (tick step : ℕ) (evs : List Event),
        RFF.emitInstr (RFF.updNotes rcfg inst (some 0)) src grid tick step evs inst = evs := by
  refine ⟨?_, fun pd grid tick step st => emitInstr_updNotes_zero_self cfg inst pd grid tick step st,
    rff_run_updNotes_zero rcfg inst r2,
    fun src grid tick step evs => rff_emitInstr_updNotes_zero_self rcfg inst src grid tick step evs⟩
  unfold SDM.exportSong
  simp only [updNotes_songStructure, updNotes_sequencersData, runBody_updNotes_zero]

theorem digitVal_one : digitVal '1' = 1 := by decide

theorem fill_not_upper (c : Char) (h : isFillTok c = true) : isUpperTok c = false := by
  rw [Bool.eq_false_iff]
  intro hu
  simp only [isFillTok, Bool.and_eq_true, decide_eq_true_eq] at h
  simp only [isUpperTok, Bool.and_eq_true, decide_eq_true_eq] at hu
  exact absurd (le_trans hu.1 h.2) (by decide)

theorem rff_lastValid_foldl (cfg : RFF.Config) :
    ∀ (toks : List Char) (st : RFF.RState),
      (toks.foldl (RFF.processItem cfg) st).lastValid =
        toks.foldl
          (fun acc t =>
            if isUpperTok t then
              match findPattern cfg.sequencersData t with
              | some pd => some pd
              | none => acc
            else acc)
          st.lastValid := by
  intro toks
  induction toks with
  | nil => intro st; rfl
  | cons t ts ih =>
    intro st
    simp only [List.foldl_cons]
    rw [ih]
    congr 1
    unfold RFF.processItem
    by_cases hu : isUpperTok t = true
    · simp only [hu, if_true]
      cases hfind : findPattern cfg.sequencersData t <;> simp [hfind]
    · rw [Bool.not_eq_true] at hu
      simp only [hu, Bool.false_eq_true, if_false]
      by_cases hf : isFillTok t = true
      · simp only [hf, if_true]
        cases horl : st.lastValid.orElse (fun _ => cfg.sequencersData.head?) <;>
          simp [horl]
      · rw [Bool.not_eq_true] at hf
        simp [hf]

theorem processItem_fill (cfg : RFF.Config) (st : RFF.RState) (t : Char)
    (src : PatternData) (hfill : isFillTok t = true)
    (hsome : st.lastValid.orElse (fun _ => cfg.sequencersData.head?) = some src) :
    RFF.processItem cfg st t =
      ⟨st.lastValid, st.totalTicks + digitVal t * ticksPerStep,
       RFF.emitSection cfg src
         (RF.generateFillPattern (digitVal t) cfg.FILL_INSTRUMENTS st.rand).1
         (digitVal t) st.totalTicks st.events,
       (RF.generateFillPattern (digitVal t) cfg.FILL_INSTRUMENTS st.rand).2⟩ := by
  have hu := fill_not_upper t hfill
  unfold RFF.processItem
  simp only [hu, Bool.false_eq_true, if_false, hfill, if_true, hsome]

/-- C5 (amended): in the fixed RockForge exporter (`src/unnamed/part_000`)
the mutable last-valid-sequencer pointer always equals the most recently
resolved named pattern of the processed prefix, and a fill token is
compiled with the velocity source prescribed by the spec: that pattern,
falling back to the first-declared pattern when no named pattern has been
resolved yet, the fill borrowing its velocities positionally from that
source's table. -/
theorem fill_source_c5 (cfg : RFF.Config) (r : Draws) (pre post : List Char) (t : Char)
    (_harr : cfg.songStructure = pre ++ t :: post)
    (hfill : isFillTok t = true) (hsd : cfg.sequencersData ≠ []) :
    (pre.foldl (RFF.processItem cfg) ⟨none, 0, [], r⟩).lastValid =
      RFF.lastNamedIn cfg.sequencersData pre
    ∧ ∃ src : PatternData,
        RFF.fillSourceSpec cfg.sequencersData pre = some src
        ∧ RFF.processItem cfg (pre.foldl (RFF.processItem cfg) ⟨none, 0, [], r⟩) t =
            ⟨(pre.foldl (RFF.processItem cfg) ⟨none, 0, [], r⟩).lastValid,
             (pre.foldl (RFF.processItem cfg) ⟨none, 0, [], r⟩).totalTicks +
               digitVal t * ticksPerStep,
             RFF.emitSection cfg src
               (RF.generateFillPattern (digitVal t) cfg.FILL_INSTRUMENTS
                 (pre.foldl (RFF.processItem cfg) ⟨none, 0, [], r⟩).rand).1
               (digitVal t)
               (pre.foldl (RFF.processItem cfg) ⟨none, 0, [], r⟩).totalTicks
               (pre.foldl (RFF.processItem cfg) ⟨none, 0, [], r⟩).events,
             (RF.generateFillPattern (digitVal t) cfg.FILL_INSTRUMENTS
               (pre.foldl (RFF.processItem cfg) ⟨none, 0, [], r⟩).rand).2⟩ := by
  have h1 : (pre.foldl (RFF.processItem cfg) ⟨none, 0, [], r⟩).lastValid =
      RFF.lastNamedIn cfg.sequencersData pre := by
    rw [rff_lastValid_foldl]
    rfl
  refine ⟨h1, ?_⟩
  cases hln : RFF.lastNamedIn cfg.sequencersData pre with
  | some pd =>
    refine ⟨pd, ?_, ?_⟩
    · unfold RFF.fillSourceSpec
      rw [hln]
    · exact processItem_fill cfg _ t pd hfill (by rw [h1, hln]; rfl)
  | none =>
    cases hsdc : cfg.sequencersData with
    | nil => exact absurd hsdc hsd
    | cons a tl =>
      refine ⟨a, ?_, ?_⟩
      · rw [hsdc] at hln
        unfold RFF.fillSourceSpec
        rw [hln]
        rfl
      · exact processItem_fill cfg _ t a hfill (by rw [h1, hln, hsdc]; rfl)

/-- C5 counterexample: in the SongDrumMachine exporter the fill of
arrangement "1A" over patterns {A} is not bound to A's velocity table:
its event carries the fixed default base velocity 100, while A's stored
velocity 64 rescales to 50 (as A's own section shows). -/
theorem fill_source_c5_counterexample :
    (SDM.exportSong cfgFill1A [1/2, 0]).events =
      [⟨36, 0, 100, 10⟩, ⟨36, 128, 50, 10⟩]
    ∧ SDM.rescale 64 = 50 ∧ (100 : ℤ) ≠ 50 := by
  refine ⟨?_, by norm_num [SDM.rescale, jsRound], by norm_num⟩
  norm_num +decide [SDM.exportSong, SDM.runBody, SDM.processSection, SDM.emitSection,
    SDM.emitInstr, SDM.applyHumanize, SDM.baseVelocityOf, SDM.swingDelayOf,
    SDM.generateFill, SDM.fillStep, SDM.fillInit, SDM.lookAheadSteps, SDM.rescale,
    jsRound, rnd, gridSet, activeAt, findPattern, isFillTok, digitVal_one,
    ticksPerStep, cfgFill1A, pdA64, notes36, List.range_succ, List.find?]

theorem fill_source_c5_witness :
    ((([] : List Char).foldl (RFF.processItem rffFill1A) ⟨none, 0, [], [0]⟩).lastValid =
      RFF.lastNamedIn rffFill1A.sequencersData []
    ∧ ∃ src : PatternData,
        RFF.fillSourceSpec rffFill1A.sequencersData [] = some src
        ∧ RFF.processItem rffFill1A
            (([] : List Char).foldl (RFF.processItem rffFill1A) ⟨none, 0, [], [0]⟩) '1' =
            ⟨(([] : List Char).foldl (RFF.processItem rffFill1A) ⟨none, 0, [], [0]⟩).lastValid,
             (([] : List Char).foldl (RFF.processItem rffFill1A) ⟨none, 0, [], [0]⟩).totalTicks +
               digitVal '1' * ticksPerStep,
             RFF.emitSection rffFill1A src
               (RF.generateFillPattern (digitVal '1') rffFill1A.FILL_INSTRUMENTS
                 (([] : List Char).foldl (RFF.processItem rffFill1A) ⟨none, 0, [], [0]⟩).rand).1
               (digitVal '1')
               (([] : List Char).foldl (RFF.processItem rffFill1A) ⟨none, 0, [], [0]⟩).totalTicks
               (([] : List Char).foldl (RFF.processItem rffFill1A) ⟨none, 0, [], [0]⟩).events,
             (RF.generateFillPattern (digitVal '1') rffFill1A.FILL_INSTRUMENTS
               (([] : List Char).foldl (RFF.processItem rffFill1A) ⟨none, 0, [], [0]⟩).rand).2⟩)
    ∧ (RFF.run rffFill1A [0]).events = [⟨36, 0, 50, 10⟩, ⟨36, 128, 50, 10⟩] := by
  refine ⟨fill_source_c5 rffFill1A [0] [] ['A'] '1' rfl (by decide) (by simp [rffFill1A]), ?_⟩
  norm_num +decide [RFF.run, RFF.processItem, RFF.emitSection, RFF.emitInstr, RFF.velNote,
    RF.generateFillPattern, RF.fillStep, RF.fillInit, jsRound, rnd, gridSet, activeAt,
    findPattern, isFillTok, isUpperTok, digitVal_one, ticksPerStep, rffFill1A, pdA64,
    notes36, rfCatalog, List.range_succ, List.find?]

/-- C8 counterexample: with the humanize toggle on, timing amount 1
(inside the input contract) and the draw 0, the single event of
arrangement "A" starts at tick −32 < 0: the code computes
`currentTick + step*ticksPerStep + tickOffset` without clamping. -/
theorem start_tick_c8_counterexample :
    (SDM.exportSong cfgNegTick [0]).events = [⟨36, -32, 100, 10⟩]
    ∧ (-32 : ℤ) < 0 := by
  refine ⟨?_, by norm_num⟩
  norm_num +decide [SDM.exportSong, SDM.runBody, SDM.processSection, SDM.emitSection,
    SDM.emitInstr, SDM.applyHumanize, SDM.baseVelocityOf, SDM.swingDelayOf,
    SDM.generateFill, SDM.fillStep, SDM.fillInit, SDM.lookAheadSteps, SDM.rescale,
    jsRound, rnd, gridSet, activeAt, findPattern, isFillTok, ticksPerStep,
    cfgNegTick, pdA127, notes36, List.range_succ, List.find?]

theorem swingDelayOf_nonneg (q : ℚ) (step : ℕ) (h : 0 ≤ q) :
    0 ≤ SDM.swingDelayOf q step := by
  unfold SDM.swingDelayOf jsRound
  split
  · rw [Int.le_floor]
    push_cast
    nlinarith [mul_nonneg (mul_nonneg h (by norm_num : (0:ℚ) ≤ 2))
      (Nat.cast_nonneg (α := ℚ) ticksPerStep)]
  · exact le_refl 0

theorem foldl_preserve {α β : Type _} (P : β → Prop) (f : β → α → β)
    (hf : ∀ b a, P b → P (f b a)) : ∀ (l : List α) (b), P b → P (l.foldl f b) := by
  intro l
  induction l with
  | nil => intro b hb; exact hb
  | cons a as ih =>
    intro b hb
    exact ih _ (hf b a hb)

theorem emitInstr_pres (cfg : SDM.Config) (pd : Option PatternData)
    (grid : String → Option (List Bool)) (tick step : ℕ)
    (hoff : cfg.isHumanizeOn = false) (hsw : 0 ≤ cfg.swingAmount)
    (st : List Event × Draws) (inst : String)
    (hst : ∀ e ∈ st.1, 0 ≤ e.startTick) :
    ∀ e ∈ (SDM.emitInstr cfg pd grid tick step st inst).1, 0 ≤ e.startTick := by
  intro e he
  simp only [SDM.emitInstr, applyHumanize_off _ _ _ hoff] at he
  split at he
  · split at he
    · exact hst e he
    · split at he
      · exact hst e he
      · simp only [List.mem_append, List.mem_singleton] at he
        rcases he with he | he
        · exact hst e he
        · subst he
          simp only [zero_add]
          have h1 : (0 : ℤ) ≤ (tick : ℤ) := Int.natCast_nonneg tick
          have h2 : (0 : ℤ) ≤ ((step * ticksPerStep : ℕ) : ℤ) := Int.natCast_nonneg _
          have h3 := swingDelayOf_nonneg cfg.swingAmount step hsw
          show 0 ≤ (tick : ℤ) + ((step * ticksPerStep : ℕ) : ℤ) + SDM.swingDelayOf cfg.swingAmount step
          linarith
  · exact hst e he

theorem emitSection_pres (cfg : SDM.Config) (pd : Option PatternData)
    (grid : String → Option (List Bool)) (n tick : ℕ)
    (hoff : cfg.isHumanizeOn = false) (hsw : 0 ≤ cfg.swingAmount)
    (evr : List Event × Draws) (hst : ∀ e ∈ evr.1, 0 ≤ e.startTick) :
    ∀ e ∈ (SDM.emitSection cfg pd grid n tick evr).1, 0 ≤ e.startTick := by
  unfold SDM.emitSection
  refine foldl_preserve (fun s : List Event × Draws => ∀ e ∈ s.1, 0 ≤ e.startTick) _ ?_ _ _ hst
  intro b step2 hb
  exact foldl_preserve (fun s : List Event × Draws => ∀ e ∈ s.1, 0 ≤ e.startTick) _
    (fun b2 inst hb2 => emitInstr_pres cfg pd grid tick step2 hoff hsw b2 inst hb2) _ _ hb

theorem processSection_pres (cfg : SDM.Config) (idx : ℕ)
    (hoff : cfg.isHumanizeOn = false) (hsw : 0 ≤ cfg.swingAmount)
    (st : SDM.SState) (hst : ∀ e ∈ st.events, 0 ≤ e.startTick) :
    ∀ e ∈ (SDM.processSection cfg st idx).events, 0 ≤ e.startTick := by
  unfold SDM.processSection
  by_cases hf : isFillTok (cfg.songStructure.getD idx ' ') = true
  · simp only [hf, if_true]
    exact emitSection_pres cfg none _ _ _ hoff hsw _ hst
  · rw [Bool.not_eq_true] at hf
    simp only [hf, Bool.false_eq_true, if_false]
    cases hfind : findPattern cfg.sequencersData (cfg.songStructure.getD idx ' ') with
    | none => exact hst
    | some patternData =>
      exact emitSection_pres cfg (some patternData) _ _ _ hoff hsw _ hst

/-- C8 (amended): with the humanize toggle off (and a non-negative swing
amount, as the input contract requires), every emitted event has a
non-negative start tick; with humanize on the code does not clamp, and a
first-step event can start at a negative tick (see the counterexample). -/
theorem start_tick_c8_amended (cfg : SDM.Config) (r : Draws)
    (hoff : cfg.isHumanizeOn = false) (hsw : 0 ≤ cfg.swingAmount) :
    ∀ e ∈ (SDM.exportSong cfg r).events, 0 ≤ e.startTick := by
  unfold SDM.exportSong
  split
  · intro e he
    simp at he
  · unfold SDM.runBody
    exact foldl_preserve (fun s : SDM.SState => ∀ e ∈ s.events, 0 ≤ e.startTick) _
      (fun b idx hb => processSection_pres cfg idx hoff hsw b hb) _ _ (by intro e he; simp at he)

theorem start_tick_c8_amended_witness :
    (SDM.exportSong cfgSwing []).events.all (fun e => decide (0 ≤ e.startTick)) = true := by
  have h := start_tick_c8_amended cfgSwing [] rfl (by norm_num [cfgSwing])
  rw [List.all_eq_true]
  intro x hx
  exact decide_eq_true (h x hx)

theorem getD_set_ne (l : List Bool) (i j : ℕ) (b : Bool) (hij : i ≠ j) :
    (l.set i b).getD j false = l.getD j false := by
  induction l generalizing i j with
  | nil => simp
  | cons x xs ih =>
    cases i with
    | zero =>
      cases j with
      | zero => exact absurd rfl hij
      | succ j2 => simp
    | succ i2 =>
      cases j with
      | zero => simp
      | succ j2 => simpa using ih i2 j2 (by omega)

theorem getD_set_self (l : List Bool) (i : ℕ) (b : Bool) (hi : i < l.length) :
    (l.set i b).getD i false = b := by
  induction l generalizing i with
  | nil => simp at hi
  | cons x xs ih =>
    cases i with
    | zero => simp
    | succ i2 => simpa using ih i2 (by simpa using hi)

theorem getD_replicate_false (n i : ℕ) : (List.replicate n false).getD i false = false := by
  induction n generalizing i with
  | zero => simp
  | succ n2 ih =>
    cases i with
    | zero => simp [List.replicate]
    | succ i2 => simp only [List.replicate, List.getD_cons_succ]; exact ih i2

theorem gridSet_ne (g : String → Option (List Bool)) (inst a : String) (i : ℕ)
    (ha : a ≠ inst) : gridSet g inst i a = g a := by
  simp [gridSet, ha]

theorem gridSet_self (g : String → Option (List Bool)) (inst : String) (i : ℕ) :
    gridSet g inst i inst = (g inst).map (fun row => row.set i true) := by
  simp [gridSet]

theorem activeAt_gridSet_ne_inst (g : String → Option (List Bool)) (inst a : String)
    (i j : ℕ) (ha : a ≠ inst) : activeAt (gridSet g inst i) a j = activeAt g a j := by
  simp [activeAt, gridSet_ne g inst a i ha]

theorem activeAt_gridSet_ne_col (g : String → Option (List Bool)) (inst a : String)
    (i j : ℕ) (hij : i ≠ j) : activeAt (gridSet g inst i) a j = activeAt g a j := by
  by_cases ha : a = inst
  · subst ha
    rw [activeAt, activeAt, gridSet_self]
    cases hg : g a with
    | none => rfl
    | some row => simpa using getD_set_ne row i j true hij
  · exact activeAt_gridSet_ne_inst g inst a i j ha

theorem activeAt_gridSet_self (g : String → Option (List Bool)) (inst : String)
    (i : ℕ) (row : List Bool) (hg : g inst = some row) (hi : i < row.length) :
    activeAt (gridSet g inst i) inst i = true := by
  rw [activeAt, gridSet_self, hg]
  simpa using getD_set_self row i true hi

theorem headD_bound (r : Draws) (h : ∀ q ∈ r, 0 ≤ q ∧ q < 1) :
    0 ≤ r.headD 0 ∧ r.headD 0 < 1 := by
  cases r with
  | nil => norm_num
  | cons a as => exact h a (by simp)

theorem tail_bound (r : Draws) (h : ∀ q ∈ r, 0 ≤ q ∧ q < 1) :
    ∀ q ∈ r.tail, 0 ≤ q ∧ q < 1 := by
  intro q hq
  cases r with
  | nil => simp at hq
  | cons a as => exact h q (by simp at hq; simp [hq])

theorem floor_mul_lt (q : ℚ) (len : ℕ) (h0 : 0 ≤ q) (h1 : q < 1) (hlen : 0 < len) :
    (⌊q * (len : ℚ)⌋).toNat < len := by
  have hc : (0 : ℚ) < (len : ℚ) := by exact_mod_cast hlen
  have h2 : ⌊q * (len : ℚ)⌋ < (len : ℤ) := by
    apply Int.floor_lt.mpr
    push_cast
    nlinarith
  have h3 : (0 : ℤ) ≤ ⌊q * (len : ℚ)⌋ := Int.floor_nonneg.mpr (by positivity)
  omega

theorem getD_mem (l : List String) (i : ℕ) (hi : i < l.length) : l.getD i "" ∈ l := by
  rw [List.getD_eq_getElem l "" hi]
  exact List.getElem_mem hi

theorem rf_fold_inv (fi : List String) (n : ℕ) (hfi : fi ≠ []) (hsub : fi ⊆ rfCatalog) :
    ∀ (k : ℕ), k ≤ n → ∀ (r : Draws), (∀ q ∈ r, 0 ≤ q ∧ q < 1) →
      (∀ inst ∈ rfCatalog, ∃ row,
          ((List.range k).foldl (RF.fillStep fi) (RF.fillInit n, r)).1 inst = some row
          ∧ row.length = n)
      ∧ (∀ inst, inst ∉ rfCatalog →
          ((List.range k).foldl (RF.fillStep fi) (RF.fillInit n, r)).1 inst = none)
      ∧ (∀ q ∈ ((List.range k).foldl (RF.fillStep fi) (RF.fillInit n, r)).2, 0 ≤ q ∧ q < 1)
      ∧ (∀ i, k ≤ i →
          ∀ a, activeAt ((List.range k).foldl (RF.fillStep fi) (RF.fillInit n, r)).1 a i = false)
      ∧ (∀ i < k, ∃ inst, inst ∈ fi
          ∧ activeAt ((List.range k).foldl (RF.fillStep fi) (RF.fillInit n, r)).1 inst i = true
          ∧ ∀ b, activeAt ((List.range k).foldl (RF.fillStep fi) (RF.fillInit n, r)).1 b i
              = true → b = inst) := by
  intro k
  induction k with
  | zero =>
    intro _ r hr
    refine ⟨?_, ?_, ?_, ?_, ?_⟩
    · intro inst hin
      exact ⟨List.replicate n false, by simp [RF.fillInit, hin], by simp⟩
    · intro inst hin
      simp [RF.fillInit, hin]
    · simpa using hr
    · intro i _ a
      unfold activeAt RF.fillInit
      by_cases ha : a ∈ rfCatalog
      · simp only [List.range_zero, List.foldl_nil, ha, if_true]
        exact getD_replicate_false n i
      · simp [ha]
    · intro i hi
      simp at hi
  | succ k2 ih =>
    intro hk r hr
    have hk2 : k2 ≤ n := by omega
    obtain ⟨ihA, ihB, ihC, ihD, ihE⟩ := ih hk2 r hr
    set stk := (List.range k2).foldl (RF.fillStep fi) (RF.fillInit n, r) with hstk
    have hfold : (List.range (k2 + 1)).foldl (RF.fillStep fi) (RF.fillInit n, r) =
        RF.fillStep fi stk k2 := by
      rw [List.range_succ, List.foldl_append, List.foldl_cons, List.foldl_nil]
    have hq := headD_bound stk.2 ihC
    have hlen : 0 < fi.length := List.length_pos.mpr hfi
    have hidx : (⌊stk.2.headD 0 * (fi.length : ℚ)⌋).toNat < fi.length :=
      floor_mul_lt _ _ hq.1 hq.2 hlen
    set chosen := fi.getD (⌊stk.2.headD 0 * (fi.length : ℚ)⌋).toNat "" with hchosen
    have hcmem : chosen ∈ fi := getD_mem fi _ hidx
    have hccat : chosen ∈ rfCatalog := hsub hcmem
    obtain ⟨crow, hcrow, hclen⟩ := ihA chosen hccat
    have hstep : RF.fillStep fi stk k2 = (gridSet stk.1 chosen k2, stk.2.tail) := rfl
    rw [hfold, hstep]
    dsimp only
    refine ⟨?_, ?_, ?_, ?_, ?_⟩
    · intro inst hin
      by_cases hic : inst = chosen
      · subst hic
        refine ⟨crow.set k2 true, ?_, by simp [hclen]⟩
        rw [gridSet_self, hcrow]
        rfl
      · obtain ⟨row, hrow, hrlen⟩ := ihA inst hin
        exact ⟨row, by rw [gridSet_ne _ _ _ _ hic]; exact hrow, hrlen⟩
    · intro inst hin
      have hic : inst ≠ chosen := fun h => hin (h ▸ hccat)
      rw [gridSet_ne _ _ _ _ hic]
      exact ihB inst hin
    · exact tail_bound stk.2 ihC
    · intro i hi a
      rw [activeAt_gridSet_ne_col _ _ _ _ _ (by omega)]
      exact ihD i (by omega) a
    · intro i hi
      by_cases hik : i < k2
      · obtain ⟨inst, hin, hact, huniq⟩ := ihE i hik
        refine ⟨inst, hin, ?_, ?_⟩
        · rw [activeAt_gridSet_ne_col _ _ _ _ _ (by omega)]
          exact hact
        · intro b hb
          rw [activeAt_gridSet_ne_col _ _ _ _ _ (by omega)] at hb
          exact huniq b hb
      · have hieq : i = k2 := by omega
        subst hieq
        refine ⟨chosen, hcmem, ?_, ?_⟩
        · exact activeAt_gridSet_self stk.1 chosen i crow hcrow (by omega)
        · intro b hb
          by_cases hbc : b = chosen
          · exact hbc
          · rw [activeAt_gridSet_ne_inst _ _ _ _ _ hbc] at hb
            rw [ihD i (le_refl i) b] at hb
            exact absurd hb (by simp)

theorem sdm_fold_inv (INSTR FILL : List String) (n : ℕ)
    (hfill : FILL ≠ []) (hsub : FILL ⊆ INSTR) :
    ∀ (k : ℕ), k ≤ n → ∀ (r : Draws), (∀ q ∈ r, 0 ≤ q ∧ q < 1) →
      (∀ inst ∈ INSTR, ∃ row,
          ((List.range k).foldl (SDM.fillStep FILL) (SDM.fillInit INSTR n, r)).1 inst = some row
          ∧ row.length = n)
      ∧ (∀ inst, inst ∉ INSTR →
          ((List.range k).foldl (SDM.fillStep FILL) (SDM.fillInit INSTR n, r)).1 inst = none)
      ∧ (∀ q ∈ ((List.range k).foldl (SDM.fillStep FILL) (SDM.fillInit INSTR n, r)).2,
          0 ≤ q ∧ q < 1)
      ∧ (∀ i, k ≤ i → ∀ a,
          activeAt ((List.range k).foldl (SDM.fillStep FILL) (SDM.fillInit INSTR n, r)).1 a i
            = false)
      ∧ (∀ i < k,
          (∀ b, activeAt
              ((List.range k).foldl (SDM.fillStep FILL) (SDM.fillInit INSTR n, r)).1 b i = true →
            b ∈ FILL)
          ∧ ∀ a b,
            activeAt ((List.range k).foldl (SDM.fillStep FILL) (SDM.fillInit INSTR n, r)).1 a i
              = true →
            activeAt ((List.range k).foldl (SDM.fillStep FILL) (SDM.fillInit INSTR n, r)).1 b i
              = true →
            a = b) := by
  intro k
  induction k with
  | zero =>
    intro _ r hr
    refine ⟨?_, ?_, ?_, ?_, ?_⟩
    · intro inst hin
      exact ⟨List.replicate n false, by simp [SDM.fillInit, hin], by simp⟩
    · intro inst hin
      simp [SDM.fillInit, hin]
    · simpa using hr
    · intro i _ a
      unfold activeAt SDM.fillInit
      by_cases ha : a ∈ INSTR
      · simp only [List.range_zero, List.foldl_nil, ha, if_true]
        exact getD_replicate_false n i
      · simp [ha]
    · intro i hi
      simp at hi
  | succ k2 ih =>
    intro hk r hr
    have hk2 : k2 ≤ n := by omega
    obtain ⟨ihA, ihB, ihC, ihD, ihE⟩ := ih hk2 r hr
    set stk := (List.range k2).foldl (SDM.fillStep FILL) (SDM.fillInit INSTR n, r) with hstk
    have hfold : (List.range (k2 + 1)).foldl (SDM.fillStep FILL) (SDM.fillInit INSTR n, r) =
        SDM.fillStep FILL stk k2 := by
      rw [List.range_succ, List.foldl_append, List.foldl_cons, List.foldl_nil]
    by_cases hc : (2/5 : ℚ) < stk.2.headD 0
    · have hq2 := headD_bound stk.2.tail (tail_bound stk.2 ihC)
      have hlen : 0 < FILL.length := List.length_pos.mpr hfill
      have hidx : (⌊stk.2.tail.headD 0 * (FILL.length : ℚ)⌋).toNat < FILL.length :=
        floor_mul_lt _ _ hq2.1 hq2.2 hlen
      set chosen := FILL.getD (⌊stk.2.tail.headD 0 * (FILL.length : ℚ)⌋).toNat "" with hchosen
      have hcmem : chosen ∈ FILL := getD_mem FILL _ hidx
      have hccat : chosen ∈ INSTR := hsub hcmem
      obtain ⟨crow, hcrow, hclen⟩ := ihA chosen hccat
      have hstep : SDM.fillStep FILL stk k2 = (gridSet stk.1 chosen k2, stk.2.tail.tail) := by
        simp only [SDM.fillStep]
        rw [if_pos (show (rnd stk.2).1 > 2/5 from hc)]
        rfl
      rw [hfold, hstep]
      dsimp only
      refine ⟨?_, ?_, ?_, ?_, ?_⟩
      · intro inst hin
        by_cases hic : inst = chosen
        · subst hic
          refine ⟨crow.set k2 true, ?_, by simp [hclen]⟩
          rw [gridSet_self, hcrow]
          rfl
        · obtain ⟨row, hrow, hrlen⟩ := ihA inst hin
          exact ⟨row, by rw [gridSet_ne _ _ _ _ hic]; exact hrow, hrlen⟩
      · intro inst hin
        have hic : inst ≠ chosen := fun h => hin (h ▸ hccat)
        rw [gridSet_ne _ _ _ _ hic]
        exact ihB inst hin
      · exact tail_bound _ (tail_bound stk.2 ihC)
      · intro i hi a
        rw [activeAt_gridSet_ne_col _ _ _ _ _ (by omega)]
        exact ihD i (by omega) a
      · intro i hi
        by_cases hik : i < k2
        · obtain ⟨hmem, huniq⟩ := ihE i hik
          constructor
          · intro b hb
            rw [activeAt_gridSet_ne_col _ _ _ _ _ (by omega)] at hb
            exact hmem b hb
          · intro a b ha hb
            rw [activeAt_gridSet_ne_col _ _ _ _ _ (by omega)] at ha hb
            exact huniq a b ha hb
        · have hieq : i = k2 := by omega
          subst hieq
          have honly : ∀ b, activeAt (gridSet stk.1 chosen i) b i = true → b = chosen := by
            intro b hb
            by_cases hbc : b = chosen
            · exact hbc
            · rw [activeAt_gridSet_ne_inst _ _ _ _ _ hbc] at hb
              rw [ihD i (le_refl i) b] at hb
              exact absurd hb (by simp)
          constructor
          · intro b hb
            rw [honly b hb]
            exact hcmem
          · intro a b ha hb
            rw [honly a ha, honly b hb]
    · have hstep : SDM.fillStep FILL stk k2 = (stk.1, stk.2.tail) := by
        simp only [SDM.fillStep]
        rw [if_neg (show ¬(rnd stk.2).1 > 2/5 from hc)]
        rfl
      rw [hfold, hstep]
      dsimp only
      refine ⟨ihA, ihB, tail_bound stk.2 ihC, ?_, ?_⟩
      · intro i hi a
        exact ihD i (by omega) a
      · intro i hi
        by_cases hik : i < k2
        · exact ihE i hik
        · have hieq : i = k2 := by omega
          subst hieq
          constructor
          · intro b hb
            rw [ihD i (le_refl i) b] at hb
            exact absurd hb (by simp)
          · intro a b ha _
            rw [ihD i (le_refl i) a] at ha
            exact absurd ha (by simp)

/-- C9: a synthesized fill grid assigns a boolean row of exactly the
requested length to every instrument of its catalog, and at each step at
most one instrument is active, always drawn from the fill-instrument
subset; the RockForge generator strikes exactly one instrument at every
step, the SongDrumMachine generator at most one. -/
theorem fill_grid_c9 :
    (∀ (n : ℕ) (fi : List String) (r : Draws),
      fi ≠ [] → fi ⊆ rfCatalog → (∀ q ∈ r, 0 ≤ q ∧ q < 1) →
      (∀ inst ∈ rfCatalog, ∃ row,
          (RF.generateFillPattern n fi r).1 inst = some row ∧ row.length = n)
      ∧ (∀ i < n, ∃ inst, inst ∈ fi
          ∧ activeAt (RF.generateFillPattern n fi r).1 inst i = true
          ∧ ∀ b, activeAt (RF.generateFillPattern n fi r).1 b i = true → b = inst))
    ∧ (∀ (n : ℕ) (INSTR FILL : List String) (r : Draws),
      FILL ≠ [] → FILL ⊆ INSTR → (∀ q ∈ r, 0 ≤ q ∧ q < 1) →
      (∀ inst ∈ INSTR, ∃ row,
          (SDM.generateFill INSTR FILL n r).1 inst = some row ∧ row.length = n)
      ∧ (∀ i < n,
          (∀ b, activeAt (SDM.generateFill INSTR FILL n r).1 b i = true → b ∈ FILL)
          ∧ ∀ a b, activeAt (SDM.generateFill INSTR FILL n r).1 a i = true →
              activeAt (SDM.generateFill INSTR FILL n r).1 b i = true → a = b)) := by
  constructor
  · intro n fi r hfi hsub hr
    obtain ⟨hA, _, _, _, hE⟩ := rf_fold_inv fi n hfi hsub n (le_refl n) r hr
    constructor
    · intro inst hin
      obtain ⟨row, hrow, hlen⟩ := hA inst hin
      exact ⟨row, hrow, hlen⟩
    · intro i hi
      obtain ⟨inst, h1, h2, h3⟩ := hE i hi
      exact ⟨inst, h1, h2, h3⟩
  · intro n INSTR FILL r hfill hsub hr
    obtain ⟨hA, _, _, _, hE⟩ := sdm_fold_inv INSTR FILL n hfill hsub n (le_refl n) r hr
    constructor
    · intro inst hin
      obtain ⟨row, hrow, hlen⟩ := hA inst hin
      exact ⟨row, hrow, hlen⟩
    · intro i hi
      exact hE i hi

theorem fill_grid_c9_witness :
    (∀ inst ∈ rfCatalog, ∃ row,
        (RF.generateFillPattern 2 ["kick"] [0, 0]).1 inst = some row ∧ row.length = 2)
    ∧ (∀ i < 2, ∃ inst, inst ∈ ["kick"]
        ∧ activeAt (RF.generateFillPattern 2 ["kick"] [0, 0]).1 inst i = true
        ∧ ∀ b, activeAt (RF.generateFillPattern 2 ["kick"] [0, 0]).1 b i = true → b = inst)
    ∧ (∀ inst ∈ ["kick"], ∃ row,
        (SDM.generateFill ["kick"] ["kick"] 1 [1/2, 0]).1 inst = some row ∧ row.length = 1)
    ∧ (∀ i < 1,
        (∀ b, activeAt (SDM.generateFill ["kick"] ["kick"] 1 [1/2, 0]).1 b i = true →
          b ∈ ["kick"])
        ∧ ∀ a b, activeAt (SDM.generateFill ["kick"] ["kick"] 1 [1/2, 0]).1 a i = true →
            activeAt (SDM.generateFill ["kick"] ["kick"] 1 [1/2, 0]).1 b i = true → a = b) := by
  have h1 := fill_grid_c9.1 2 ["kick"] [0, 0] (by decide)
    (by intro x hx; simp only [List.mem_singleton] at hx; subst hx; decide)
    (by intro q hq; simp at hq; subst hq; norm_num)
  have h2 := fill_grid_c9.2 1 ["kick"] ["kick"] [1/2, 0] (by decide)
    (by intro x hx; exact hx)
    (by intro q hq; simp at hq; rcases hq with rfl | rfl <;> norm_num)
  exact ⟨h1.1, h1.2, h2.1, h2.2⟩
